import Mathlib

/-!
Verification of `time-stamped-model` (src/time_stamped_model/models.py).

The file embeds the model mixin methods of the library as Lean functions:
the timestamp `pre_save` overrides, `make_new_slug`, `set_order_field` and
`set_instance_type`.  The Django persistence layer is an external
collaborator; the pieces of it the code relies on (the `exists()` query, the
`Max` aggregate, `DateTimeField.pre_save`) are modelled explicitly, each
with a doc comment saying what it stands for.  Machine-level details that
cannot matter here (string interning, database connections) are out of
scope; strings are Lean `String`s, timestamps are naturals.
-/

set_option maxHeartbeats 1000000

deriving instance DecidableEq for Except

namespace TSM

/-- Record: an in-memory instance of a model inheriting `TimeStampedModel`.
`pk` is `none` before the first persist (Django auto primary keys are
non-null integers once assigned).  `update_created` / `update_modified`
model the per-instance attributes read by `getattr(instance, flag, True)`:
`true` means the attribute is absent or `True` (suppression unset), `false`
means suppression is set.  Timestamps are modelled as naturals. -/
structure Rec where
  pk : Option Nat
  slug : Option String
  name : String
  order : Option Int
  instance_type : Option String
  created : Option Nat
  modified : Option Nat
  update_created : Bool
  update_modified : Bool
deriving DecidableEq

/-- Models the inherited Django `DateTimeField.pre_save` (the
`super().pre_save(model_instance, add)` calls at models.py lines 39 and 67):
when `auto_now` is set, or `auto_now_add` is set and this is an `add`
(first persist), it stores the current time on the instance and returns it;
otherwise it returns the attribute unchanged.  Result: (new field value,
value returned by `pre_save`). -/
def dateTimeFieldPreSave (auto_now auto_now_add : Bool) (now : Nat) (add : Bool)
    (value : Option Nat) : Option Nat × Option Nat :=
  if auto_now || (auto_now_add && add) then (some now, some now)
  else (value, value)

/-- `CreationDateTimeField.pre_save` (models.py lines 34-39).  The field is
constructed with `auto_now_add = True` (line 18) and `auto_now` unset.
Returns the updated record and the value `pre_save` returns. -/
def creationPreSave (r : Rec) (add : Bool) (now : Nat) : Rec × Option Nat :=
  if r.update_created = false ∧ r.created ≠ none then (r, r.created)
  else
    let p := dateTimeFieldPreSave false true now add r.created
    ({r with created := p.1}, p.2)

/-- `ModificationDateTimeField.pre_save` (models.py lines 62-67).  The field
is constructed with `auto_now = True` (line 50) and, since `__init__` calls
`DateTimeField.__init__` directly, `auto_now_add` unset. -/
def modificationPreSave (r : Rec) (add : Bool) (now : Nat) : Rec × Option Nat :=
  if r.update_modified = false ∧ r.modified ≠ none then (r, r.modified)
  else
    let p := dateTimeFieldPreSave true false now add r.modified
    ({r with modified := p.1}, p.2)

/-- One persist of a record at time `now`: Django runs each timestamp
field's `pre_save` with the same `add` flag and stores the results.  (The
`modified` behaviour is independent of `add` because the field uses
`auto_now`.) -/
def persistOnce (r : Rec) (add : Bool) (now : Nat) : Rec :=
  let r1 := (creationPreSave r add now).1
  (modificationPreSave r1 add now).1

/-- States after each persist in a sequence of non-insert persists at the
given clock times. -/
def persistStates (r : Rec) : List Nat → List Rec
  | [] => []
  | t :: ts =>
    let r2 := persistOnce r false t
    r2 :: persistStates r2 ts

/-- Stored record as seen by the query layer: its primary key and the value
of the slug column named by `slug_field_name`.  A caller-supplied
`extra_filters` dictionary denotes a predicate on stored records and is
modelled as such. -/
structure StoredRec where
  pk : Nat
  slug : String
deriving DecidableEq

/-- Models `obj.objects.filter(**{slug_field_name: slug}, **extra_filters).exists()`
(models.py lines 142 and 154). -/
def slugExists (store : List StoredRec) (ef : StoredRec → Bool) (s : String) : Bool :=
  store.any (fun r => r.slug == s && ef r)

/-- Models `obj.objects.filter(**{slug_field_name: slug}, **extra_filters).exclude(pk=self.pk).exists()`
(models.py lines 167-168 and 180). -/
def slugExistsExcl (store : List StoredRec) (ef : StoredRec → Bool) (selfPk : Nat)
    (s : String) : Bool :=
  store.any (fun r => r.slug == s && ef r && r.pk != selfPk)

/-- Character map of the Python `str.replace('-', '_')` call (a
single-character replacement acts independently on each character). -/
def replaceDashChar (c : Char) : Char := if c = '-' then '_' else c

/-- Models `s.replace('-', '_')` (models.py lines 137, 145, 162, 171). -/
def replaceDashes (s : String) : String := ⟨s.data.map replaceDashChar⟩

/-- Models the Python slice `s[:45]` (models.py lines 132 and 160): the
first 45 characters of the string. -/
def truncate45 (s : String) : String := ⟨s.data.take 45⟩

/-- Models the interpolation `f'{main_slug}{count}'` (models.py lines 143,
150, 169, 176): `count` printed in decimal after `main_slug`. -/
def numbered (main : String) (count : Nat) : String := main ++ Nat.repr count

/-- Error outcomes of `make_new_slug`: `typeError` models the Python
`TypeError` raised by `slug in exclude_list` when `exclude_list` is `None`;
`fuelOut` marks exhaustion of the step budget given to the loop embedding
(proved unreachable for the budget `make_new_slug` supplies). -/
inductive SlugErr where
  | typeError
  | fuelOut
deriving DecidableEq

/-- Models the Python membership test `slug in exclude_list`: raises
`TypeError` when `exclude_list` is `None`. -/
def exclMem (excl : Option (List String)) (s : String) : Except SlugErr Bool :=
  match excl with
  | none => .error .typeError
  | some l => .ok (l.contains s)

/-- Models the inner exclude-list adjustment loop (models.py lines 149-151
and 175-177): `while slug in exclude_list: slug = f'{main_slug}{count}';
count += 1`.  Note the source applies no dash replacement here.  `fuel`
bounds the number of iterations of the unbounded Python loop. -/
def exclAdjust (excl : Option (List String)) (main : String) :
    Nat → String → Nat → Except SlugErr (String × Nat)
  | 0, _, _ => .error .fuelOut
  | fuel + 1, slug, count =>
    match exclMem excl slug with
    | .error e => .error e
    | .ok true => exclAdjust excl main fuel (numbered main count) (count + 1)
    | .ok false => .ok (slug, count)

/-- Models the collision-resolution loop of `make_new_slug` (models.py
lines 142-155, and identically lines 167-181 with the self-excluding
existence query): `exq` is the existence query of the branch, `excl` the
caller's `exclude_list`.  The loop condition `exists(...) or slug in
exclude_list` short-circuits exactly as in Python, so with `exclude_list =
None` the membership test (and its `TypeError`) is reached only when the
existence query is false.  The loop body makes the candidate
`f'{main_slug}{count}'`, replaces dashes if they are not allowed,
increments `count`, runs the inner exclude-list adjustment, and breaks when
the adjusted candidate is free in the store. -/
def slugLoop (exq : String → Bool) (excl : Option (List String)) (main : String)
    (allowDashes : Bool) : Nat → String → Nat → Except SlugErr String
  | 0, _, _ => .error .fuelOut
  | fuel + 1, slug, count =>
    match (if exq slug then .ok true else exclMem excl slug : Except SlugErr Bool) with
    | .error e => .error e
    | .ok false => .ok slug
    | .ok true =>
      let slug1 := numbered main count
      let slug2 := if allowDashes then slug1 else replaceDashes slug1
      match exclAdjust excl main fuel slug2 (count + 1) with
      | .error e => .error e
      | .ok (slug3, count3) =>
        if exq slug3 then slugLoop exq excl main allowDashes fuel slug3 count3
        else .ok slug3

/-- Models `current_slug is None or current_slug == ''`. -/
def isBlank : Option String → Bool
  | none => true
  | some s => s == ""

/-- Base candidate of the creation branch (models.py lines 132-137): the
slugified name truncated to 45 characters, with a fresh UUID string
substituted when that is empty, and dashes replaced when not allowed.
`sl` is Django's external `slugify`, `uuid` the value of `str(uuid.uuid4())`. -/
def newMainSlug (sl : String → String) (nm uuid : String) (allowDashes : Bool) : String :=
  let m := truncate45 (sl nm)
  let m2 := if m == "" then uuid else m
  if allowDashes then m2 else replaceDashes m2

/-- Base candidate of the edit branch (models.py lines 160-162): the
slugified name truncated to 45 characters, dashes replaced when not
allowed.  The source performs no UUID substitution in this branch. -/
def editMainSlug (sl : String → String) (nm : String) (allowDashes : Bool) : String :=
  let m := truncate45 (sl nm)
  if allowDashes then m else replaceDashes m

/-- Step budget `make_new_slug` hands to the loop embedding; proved
sufficient below, so the embedded loops never report `fuelOut`. -/
def slugFuel (store : List StoredRec) (excl : Option (List String)) : Nat :=
  store.length + (excl.getD []).length + 2

/-- `TimeStampedModel.make_new_slug` (models.py lines 99-183).  `store` and
`ef` model the queryable store and the caller's `extra_filters`; `sl`
models Django's `slugify`; `uuid` is the oracle for `str(uuid.uuid4())`;
`name` is the keyword argument (with `None` falling back to the record's
`name` attribute, line 127); the single modelled slug column stands for the
field named `slug_field_name`.  Returns the updated record, or the error
the call raises. -/
def make_new_slug (self : Rec) (store : List StoredRec) (ef : StoredRec → Bool)
    (sl : String → String) (uuid : String) (name : Option String)
    (on_edit allowDashes : Bool) (excl : Option (List String)) (on_blank : Bool) :
    Except SlugErr Rec :=
  let nm := name.getD self.name
  let current := self.slug
  match self.pk with
  | none =>
    if isBlank current then
      let main := newMainSlug sl nm uuid allowDashes
      match slugLoop (slugExists store ef) excl main allowDashes
          (slugFuel store excl) main 1 with
      | .error e => .error e
      | .ok s => .ok {self with slug := some s}
    else .ok self
  | some k =>
    if on_edit || (on_blank && isBlank current) then
      let main := editMainSlug sl nm allowDashes
      match slugLoop (slugExistsExcl store ef k) excl main allowDashes
          (slugFuel store excl) main 1 with
      | .error e => .error e
      | .ok s => .ok {self with slug := some s}
    else .ok self

/-- Stored record as seen by the `order` query: the value of the order
column (nullable, as an integer field). -/
structure OrderRec where
  order : Option Int
deriving DecidableEq

/-- Models the SQL `MAX` aggregate `aggregate(Max(order_field))` over the
order values of the filtered records (models.py line 218): `none` when no
non-null value exists, otherwise the greatest value. -/
def aggMax : List Int → Option Int
  | [] => none
  | v :: vs =>
    match aggMax vs with
    | none => some v
    | some m => some (max v m)

/-- `TimeStampedModel.set_order_field` (models.py lines 185-223): when the
record's order field is `None`, assign one plus the maximum order value
among stored records matching `extra_filters`, or `1` when the aggregate is
`None`; otherwise leave the record unchanged. -/
def set_order_field (self : Rec) (store : List OrderRec) (ef : OrderRec → Bool) : Rec :=
  match self.order with
  | some _ => self
  | none =>
    match aggMax ((store.filter ef).filterMap (fun r => r.order)) with
    | none => {self with order := some 1}
    | some m => {self with order := some (m + 1)}

/-- Models the Python `label.split('.')` at the character level (the
separator is the single character `'.'`; `''.split('.') == ['']`). -/
def splitDotAux : List Char → List Char → List String
  | [], acc => [⟨acc.reverse⟩]
  | c :: cs, acc =>
    if c = '.' then ⟨acc.reverse⟩ :: splitDotAux cs [] else splitDotAux cs (c :: acc)

/-- Models `label.split('.')`. -/
def splitDot (s : String) : List String := splitDotAux s.data []

/-- `TimeStampedModel.set_instance_type` (models.py lines 225-257):
`label_lower` is the record type's `_meta.label_lower`
(`'app_label.model_name'`).  When the instance-type field is `None` the
model-name part (`label_lower.split('.')[1]`) is assigned; a missing index
(no dot in the label) models the Python `IndexError` as `none`. -/
def set_instance_type (self : Rec) (label_lower : String) : Option Rec :=
  match self.instance_type with
  | some _ => some self
  | none =>
    match (splitDot label_lower).get? 1 with
    | none => none
    | some ty => some {self with instance_type := some ty}

/-- Value of a decimal digit character. -/
def digitVal (c : Char) : Nat := c.toNat - 48

/-- Number denoted by a most-significant-first decimal digit list. -/
def digitsVal (l : List Char) : Nat := l.foldl (fun a c => 10 * a + digitVal c) 0

/-- Strings whose characters contain no dash. -/
def noDash (s : String) : Prop := ∀ c ∈ s.data, c ≠ '-'

/-- Indices at or past `count` whose numbered candidate collides with one of
the finitely many occupied slugs `T`; its size bounds the remaining work of
the collision-resolution loop. -/
def badSet (T : List String) (main : String) (count : Nat) : Set ℕ :=
  {c | count ≤ c ∧ numbered main c ∈ T}

end TSM

namespace TSM

/-! ### Decimal representation facts -/

lemma digitChar_ne_dash (m : Nat) : Nat.digitChar m ≠ '-' := by
  match m with
  | 0 | 1 | 2 | 3 | 4 | 5 | 6 | 7 | 8 | 9 | 10 | 11 | 12 | 13 | 14 | 15 => decide
  | n + 16 =>
    have h : Nat.digitChar (n + 16) = '*' := by
      unfold Nat.digitChar
      iterate 16 rw [if_neg (by omega)]
    rw [h]
    decide

lemma digitVal_digitChar (m : Nat) (h : m < 10) : digitVal (Nat.digitChar m) = m := by
  interval_cases m <;> decide

lemma toDigitsCore_acc (b : Nat) :
    ∀ (f n : Nat) (acc : List Char),
      Nat.toDigitsCore b f n acc = Nat.toDigitsCore b f n [] ++ acc := by
  intro f
  induction f with
  | zero => intro n acc; simp [Nat.toDigitsCore]
  | succ f ih =>
    intro n acc
    simp only [Nat.toDigitsCore]
    by_cases h : n / b = 0
    · simp [h]
    · simp only [h, if_false]
      rw [ih (n / b) (Nat.digitChar (n % b) :: acc), ih (n / b) [Nat.digitChar (n % b)]]
      simp

lemma toDigitsCore_fuel (b : Nat) (hb : 2 ≤ b) :
    ∀ (f1 f2 n : Nat), n < f1 → n < f2 →
      Nat.toDigitsCore b f1 n [] = Nat.toDigitsCore b f2 n [] := by
  intro f1
  induction f1 with
  | zero => intro f2 n h1 _; omega
  | succ f1 ih =>
    intro f2 n h1 h2
    match f2, h2 with
    | f2 + 1, _ =>
      simp only [Nat.toDigitsCore]
      by_cases h : n / b = 0
      · simp [h]
      · simp only [h, if_false]
        rw [toDigitsCore_acc b f1, toDigitsCore_acc b f2]
        have hn0 : n ≠ 0 := by
          intro h0
          rw [h0, Nat.zero_div] at h
          exact h rfl
        have hdiv : n / b < n := Nat.div_lt_self (Nat.pos_of_ne_zero hn0) (by omega)
        rw [ih f2 (n / b) (by omega) (by omega)]

lemma toDigits_eq (n : Nat) :
    Nat.toDigits 10 n =
      (if n / 10 = 0 then [] else Nat.toDigits 10 (n / 10)) ++ [Nat.digitChar (n % 10)] := by
  show Nat.toDigitsCore 10 (n + 1) n [] = _
  simp only [Nat.toDigitsCore]
  by_cases h : n / 10 = 0
  · simp [h]
  · simp only [h, if_false, List.nil_append]
    rw [toDigitsCore_acc 10 n]
    have hn0 : n ≠ 0 := by
      intro h0
      rw [h0, Nat.zero_div] at h
      exact h rfl
    have hdiv : n / 10 < n := Nat.div_lt_self (Nat.pos_of_ne_zero hn0) (by omega)
    rw [toDigitsCore_fuel 10 (by omega) n (n / 10 + 1) (n / 10) (by omega) (by omega)]
    rfl

lemma digitsVal_toDigits (n : Nat) : digitsVal (Nat.toDigits 10 n) = n := by
  induction n using Nat.strong_induction_on with
  | _ n ih =>
    rw [toDigits_eq]
    by_cases h : n / 10 = 0
    · have hn : n < 10 := by omega
      have hmod : n % 10 = n := Nat.mod_eq_of_lt hn
      simp [h, digitsVal, hmod, digitVal_digitChar n hn]
    · have hn0 : n ≠ 0 := by
        intro h0
        rw [h0, Nat.zero_div] at h
        exact h rfl
      have hdiv : n / 10 < n := Nat.div_lt_self (Nat.pos_of_ne_zero hn0) (by omega)
      have hih := ih (n / 10) hdiv
      simp only [h, if_false, digitsVal, List.foldl_append, List.foldl] at hih ⊢
      rw [hih, digitVal_digitChar (n % 10) (Nat.mod_lt n (by omega))]
      omega

lemma toDigits_inj {m n : Nat} (h : Nat.toDigits 10 m = Nat.toDigits 10 n) : m = n := by
  have := congrArg digitsVal h
  rwa [digitsVal_toDigits, digitsVal_toDigits] at this

lemma repr_inj_nat {m n : Nat} (h : Nat.repr m = Nat.repr n) : m = n := by
  apply toDigits_inj
  exact congrArg String.data h

lemma toDigits_ne_dash (n : Nat) : ∀ c ∈ Nat.toDigits 10 n, c ≠ '-' := by
  induction n using Nat.strong_induction_on with
  | _ n ih =>
    rw [toDigits_eq]
    intro c hc
    rcases List.mem_append.mp hc with h1 | h2
    · by_cases h : n / 10 = 0
      · simp [h] at h1
      · have hn0 : n ≠ 0 := by
          intro h0
          rw [h0, Nat.zero_div] at h
          exact h rfl
        have hdiv : n / 10 < n := Nat.div_lt_self (Nat.pos_of_ne_zero hn0) (by omega)
        simp only [h, if_false] at h1
        exact ih (n / 10) hdiv c h1
    · rw [List.mem_singleton.mp h2]
      exact digitChar_ne_dash (n % 10)

lemma noDash_repr (n : Nat) : noDash (Nat.repr n) := toDigits_ne_dash n

/-! ### String facts about the slug candidates -/

lemma replaceDashChar_ne_dash (c : Char) : replaceDashChar c ≠ '-' := by
  unfold replaceDashChar
  split_ifs with h
  · decide
  · exact h

lemma replaceDashChar_eq_self {c : Char} (h : c ≠ '-') : replaceDashChar c = c := by
  unfold replaceDashChar
  rw [if_neg h]

lemma map_replaceDashChar_eq_self {l : List Char} (h : ∀ c ∈ l, c ≠ '-') :
    l.map replaceDashChar = l := by
  induction l with
  | nil => rfl
  | cons c cs ih =>
    simp only [List.map_cons]
    rw [replaceDashChar_eq_self (h c (List.mem_cons_self c cs)),
      ih (fun x hx => h x (List.mem_cons_of_mem c hx))]

lemma noDash_replaceDashes (s : String) : noDash (replaceDashes s) := by
  intro c hc
  rcases List.mem_map.mp hc with ⟨d, _, rfl⟩
  exact replaceDashChar_ne_dash d

lemma replaceDashes_eq_self {s : String} (h : noDash s) : replaceDashes s = s := by
  apply String.ext
  exact map_replaceDashChar_eq_self h

lemma replaceDashes_idem (s : String) : replaceDashes (replaceDashes s) = replaceDashes s :=
  replaceDashes_eq_self (noDash_replaceDashes s)

lemma replaceDashes_append (s t : String) :
    replaceDashes (s ++ t) = replaceDashes s ++ replaceDashes t := by
  apply String.ext
  rw [String.data_append]
  show ((s ++ t).data).map replaceDashChar = s.data.map replaceDashChar ++ t.data.map replaceDashChar
  rw [String.data_append, List.map_append]

lemma numbered_inj {main : String} {c1 c2 : Nat} (h : numbered main c1 = numbered main c2) :
    c1 = c2 := by
  unfold numbered at h
  have hd := congrArg String.data h
  rw [String.data_append, String.data_append] at hd
  exact repr_inj_nat (String.ext (List.append_cancel_left hd))

lemma noDash_numbered {main : String} (h : noDash main) (c : Nat) : noDash (numbered main c) := by
  intro ch hch
  unfold numbered at hch
  rw [String.data_append] at hch
  rcases List.mem_append.mp hch with h1 | h2
  · exact h ch h1
  · exact noDash_repr c ch h2

lemma replaceDashes_numbered {main : String} (h : replaceDashes main = main) (c : Nat) :
    replaceDashes (numbered main c) = numbered main c := by
  unfold numbered
  rw [replaceDashes_append, h, replaceDashes_eq_self (noDash_repr c)]

lemma contains_eq_false {l : List String} {s : String} (h : s ∉ l) : l.contains s = false := by
  cases hc : l.contains s
  · rfl
  · exact absurd (List.elem_iff.mp hc) h

/-! ### Cardinality bound driving the loop -/

lemma badSet_finite (T : List String) (main : String) (count : Nat) :
    (badSet T main count).Finite := by
  apply Set.Finite.subset
    (Set.Finite.preimage (f := numbered main)
      (fun a _ b _ hab => numbered_inj hab) (List.finite_toSet T))
  intro c hc
  exact hc.2

lemma badSet_subset {T : List String} {main : String} {c1 c2 : Nat} (h : c1 ≤ c2) :
    badSet T main c2 ⊆ badSet T main c1 :=
  fun _ hc => ⟨le_trans h hc.1, hc.2⟩

lemma badSet_drop {T : List String} {main : String} {count c0 : Nat}
    (h1 : count ≤ c0) (h2 : numbered main c0 ∈ T) :
    (badSet T main (c0 + 1)).ncard < (badSet T main count).ncard := by
  have hss : badSet T main (c0 + 1) ⊂ badSet T main count := by
    rw [Set.ssubset_iff_of_subset (badSet_subset (by omega))]
    refine ⟨c0, ⟨h1, h2⟩, fun hc => ?_⟩
    exact absurd hc.1 (by omega)
  exact Set.ncard_lt_ncard hss (badSet_finite T main count)

lemma badSet_card_le (T : List String) (main : String) (count : Nat) :
    (badSet T main count).ncard ≤ T.length := by
  have h1 : (badSet T main count).ncard ≤ ({x | x ∈ T} : Set String).ncard := by
    refine Set.ncard_le_ncard_of_injOn (numbered main) ?_ ?_ (List.finite_toSet T)
    · intro c hc
      exact hc.2
    · intro a _ b _ hab
      exact numbered_inj hab
  have h2 : ({x | x ∈ T} : Set String).ncard ≤ T.length := by
    rw [← List.coe_toFinset, Set.ncard_coe_Finset]
    exact List.toFinset_card_le T
  omega

/-! ### Unfolding the collision-resolution loop -/

lemma exclAdjust_succ_mem {l : List String} {main slug : String} {fuel count : Nat}
    (h : l.contains slug = true) :
    exclAdjust (some l) main (fuel + 1) slug count =
      exclAdjust (some l) main fuel (numbered main count) (count + 1) := by
  simp only [exclAdjust, exclMem, h]

lemma exclAdjust_succ_not_mem {l : List String} {main slug : String} {fuel count : Nat}
    (h : l.contains slug = false) :
    exclAdjust (some l) main (fuel + 1) slug count = .ok (slug, count) := by
  simp only [exclAdjust, exclMem, h]

lemma slugLoop_succ_exit {exq : String → Bool} {l : List String} {main slug : String}
    {ad : Bool} {fuel count : Nat}
    (h1 : exq slug = false) (h2 : l.contains slug = false) :
    slugLoop exq (some l) main ad (fuel + 1) slug count = .ok slug := by
  simp only [slugLoop, exclMem, h1, h2]
  rfl

lemma slugLoop_succ_body {exq : String → Bool} {l : List String} {main slug : String}
    {ad : Bool} {fuel count : Nat}
    (h : exq slug = true ∨ l.contains slug = true) :
    slugLoop exq (some l) main ad (fuel + 1) slug count =
      match exclAdjust (some l) main fuel
          (if ad then numbered main count else replaceDashes (numbered main count))
          (count + 1) with
      | .error e => .error e
      | .ok (slug3, count3) =>
        if exq slug3 then slugLoop exq (some l) main ad fuel slug3 count3
        else .ok slug3 := by
  by_cases hq : exq slug = true
  · simp only [slugLoop, hq]
    rfl
  · rw [Bool.not_eq_true] at hq
    rcases h with h | h
    · rw [hq] at h
      exact absurd h (by decide)
    · simp only [slugLoop, exclMem, hq, h]
      rfl

/-! ### Correctness and termination of the loop -/

lemma exclAdjust_spec (l T : List String) (main : String)
    (hl : ∀ s ∈ l, s ∈ T) :
    ∀ (fuel c : Nat), (badSet T main c).ncard + 1 ≤ fuel →
      ∃ c', c ≤ c' ∧ numbered main c' ∉ l ∧
        exclAdjust (some l) main fuel (numbered main c) (c + 1) =
          .ok (numbered main c', c' + 1) := by
  intro fuel
  induction fuel with
  | zero =>
    intro c hc
    omega
  | succ fuel ih =>
    intro c hc
    by_cases hmem : numbered main c ∈ l
    · have hdrop := badSet_drop (le_refl c) (hl _ hmem)
      obtain ⟨c', h1, h2, h3⟩ := ih (c + 1) (by omega)
      refine ⟨c', by omega, h2, ?_⟩
      rw [exclAdjust_succ_mem (List.elem_iff.mpr hmem)]
      exact h3
    · exact ⟨c, le_refl c, hmem, exclAdjust_succ_not_mem (contains_eq_false hmem)⟩

lemma slugLoop_spec (exq : String → Bool) (l T : List String) (main : String)
    (ad : Bool)
    (hTq : ∀ s, exq s = true → s ∈ T) (hTl : ∀ s ∈ l, s ∈ T)
    (hmain : ad = true ∨ replaceDashes main = main) :
    ∀ (fuel : Nat) (slug : String) (count : Nat),
      (badSet T main count).ncard + 2 ≤ fuel →
      ∃ s, slugLoop exq (some l) main ad fuel slug count = .ok s ∧
        exq s = false ∧ s ∉ l ∧
        (s = slug ∨ ∃ c, count ≤ c ∧ s = numbered main c) := by
  intro fuel
  induction fuel with
  | zero =>
    intro slug count h
    omega
  | succ fuel ih =>
    intro slug count h
    by_cases hcond : exq slug = true ∨ l.contains slug = true
    · have hcand : (if ad then numbered main count else replaceDashes (numbered main count)) =
          numbered main count := by
        rcases hmain with h1 | h1
        · rw [h1]
          rfl
        · by_cases ha : ad = true <;> simp [ha, replaceDashes_numbered h1]
      obtain ⟨c', hc1, hc2, hc3⟩ := exclAdjust_spec l T main hTl fuel count (by omega)
      by_cases hq2 : exq (numbered main c') = true
      · have hdrop := badSet_drop hc1 (hTq _ hq2)
        obtain ⟨s, hs1, hs2, hs3, hs4⟩ := ih (numbered main c') (c' + 1) (by omega)
        refine ⟨s, ?_, hs2, hs3, ?_⟩
        · rw [slugLoop_succ_body hcond, hcand, hc3]
          simp only [hq2, if_pos]
          exact hs1
        · rcases hs4 with rfl | ⟨c, hcc, rfl⟩
          · exact Or.inr ⟨c', hc1, rfl⟩
          · exact Or.inr ⟨c, by omega, rfl⟩
      · rw [Bool.not_eq_true] at hq2
        refine ⟨numbered main c', ?_, hq2, hc2, Or.inr ⟨c', hc1, rfl⟩⟩
        rw [slugLoop_succ_body hcond, hcand, hc3]
        simp only [hq2]
        rfl
    · push_neg at hcond
      have hq := Bool.eq_false_iff.mpr hcond.1
      have hc := Bool.eq_false_iff.mpr hcond.2
      exact ⟨slug, slugLoop_succ_exit hq hc, hq,
        fun hm => absurd ((List.elem_iff.mpr hm).symm.trans hc) (by decide), Or.inl rfl⟩

/-! ### From the queries to the occupied-slug list -/

lemma slugExists_mem {store : List StoredRec} {ef : StoredRec → Bool} {s : String}
    (h : slugExists store ef s = true) : s ∈ store.map (fun r => r.slug) := by
  unfold slugExists at h
  rcases List.any_eq_true.mp h with ⟨r, hr, hb⟩
  rw [Bool.and_eq_true] at hb
  exact List.mem_map.mpr ⟨r, hr, beq_iff_eq.mp hb.1⟩

lemma slugExistsExcl_mem {store : List StoredRec} {ef : StoredRec → Bool} {k : Nat} {s : String}
    (h : slugExistsExcl store ef k s = true) : s ∈ store.map (fun r => r.slug) := by
  unfold slugExistsExcl at h
  rcases List.any_eq_true.mp h with ⟨r, hr, hb⟩
  rw [Bool.and_eq_true, Bool.and_eq_true] at hb
  exact List.mem_map.mpr ⟨r, hr, beq_iff_eq.mp hb.1.1⟩

/-! ### Branch equations of make_new_slug -/

lemma make_new_slug_new_branch (self : Rec) (store : List StoredRec) (ef : StoredRec → Bool)
    (sl : String → String) (uuid : String) (name : Option String)
    (on_edit ad : Bool) (excl : Option (List String)) (on_blank : Bool)
    (hpk : self.pk = none) (hbl : isBlank self.slug = true) :
    make_new_slug self store ef sl uuid name on_edit ad excl on_blank =
      match slugLoop (slugExists store ef) excl (newMainSlug sl (name.getD self.name) uuid ad)
          ad (slugFuel store excl) (newMainSlug sl (name.getD self.name) uuid ad) 1 with
      | .error e => .error e
      | .ok s => .ok {self with slug := some s} := by
  unfold make_new_slug
  rw [hpk]
  simp only [hbl, if_pos]

lemma make_new_slug_edit_branch (self : Rec) (store : List StoredRec) (ef : StoredRec → Bool)
    (sl : String → String) (uuid : String) (name : Option String)
    (on_edit ad : Bool) (excl : Option (List String)) (on_blank : Bool) (k : Nat)
    (hpk : self.pk = some k)
    (hcond : (on_edit || (on_blank && isBlank self.slug)) = true) :
    make_new_slug self store ef sl uuid name on_edit ad excl on_blank =
      match slugLoop (slugExistsExcl store ef k) excl (editMainSlug sl (name.getD self.name) ad)
          ad (slugFuel store excl) (editMainSlug sl (name.getD self.name) ad) 1 with
      | .error e => .error e
      | .ok s => .ok {self with slug := some s} := by
  unfold make_new_slug
  rw [hpk]
  simp only [hcond, if_pos]

lemma newMainSlug_hmain (sl : String → String) (nm uuid : String) (ad : Bool) :
    ad = true ∨ replaceDashes (newMainSlug sl nm uuid ad) = newMainSlug sl nm uuid ad := by
  cases ad
  · right
    exact replaceDashes_idem _
  · left
    rfl

lemma editMainSlug_hmain (sl : String → String) (nm : String) (ad : Bool) :
    ad = true ∨ replaceDashes (editMainSlug sl nm ad) = editMainSlug sl nm ad := by
  cases ad
  · right
    exact replaceDashes_idem _
  · left
    rfl

lemma slugFuel_ge (store : List StoredRec) (l : List String) (main : String) (count : Nat) :
    (badSet (store.map (fun r => r.slug) ++ l) main count).ncard + 2 ≤ slugFuel store (some l) := by
  have h := badSet_card_le (store.map (fun r => r.slug) ++ l) main count
  rw [List.length_append, List.length_map] at h
  unfold slugFuel
  simp only [Option.getD_some]
  omega

/-- Packaged application of the loop spec to the creation branch. -/
lemma make_new_slug_new_spec (self : Rec) (store : List StoredRec) (ef : StoredRec → Bool)
    (sl : String → String) (uuid : String) (name : Option String)
    (on_edit ad : Bool) (l : List String) (on_blank : Bool)
    (hpk : self.pk = none) (hbl : isBlank self.slug = true) :
    ∃ s, make_new_slug self store ef sl uuid name on_edit ad (some l) on_blank =
        .ok {self with slug := some s} ∧
      slugExists store ef s = false ∧ s ∉ l ∧
      (s = newMainSlug sl (name.getD self.name) uuid ad ∨
        ∃ c, 1 ≤ c ∧ s = numbered (newMainSlug sl (name.getD self.name) uuid ad) c) := by
  obtain ⟨s, hs1, hs2, hs3, hs4⟩ :=
    slugLoop_spec (slugExists store ef) l (store.map (fun r => r.slug) ++ l)
      (newMainSlug sl (name.getD self.name) uuid ad) ad
      (fun t ht => List.mem_append.mpr (Or.inl (slugExists_mem ht)))
      (fun t ht => List.mem_append.mpr (Or.inr ht))
      (newMainSlug_hmain sl (name.getD self.name) uuid ad)
      (slugFuel store (some l)) (newMainSlug sl (name.getD self.name) uuid ad) 1
      (slugFuel_ge store l _ 1)
  refine ⟨s, ?_, hs2, hs3, hs4⟩
  rw [make_new_slug_new_branch self store ef sl uuid name on_edit ad (some l) on_blank hpk hbl,
    hs1]

/-- Packaged application of the loop spec to the edit branch. -/
lemma make_new_slug_edit_spec (self : Rec) (store : List StoredRec) (ef : StoredRec → Bool)
    (sl : String → String) (uuid : String) (name : Option String)
    (on_edit ad : Bool) (l : List String) (on_blank : Bool) (k : Nat)
    (hpk : self.pk = some k)
    (hcond : (on_edit || (on_blank && isBlank self.slug)) = true) :
    ∃ s, make_new_slug self store ef sl uuid name on_edit ad (some l) on_blank =
        .ok {self with slug := some s} ∧
      slugExistsExcl store ef k s = false ∧ s ∉ l ∧
      (s = editMainSlug sl (name.getD self.name) ad ∨
        ∃ c, 1 ≤ c ∧ s = numbered (editMainSlug sl (name.getD self.name) ad) c) := by
  obtain ⟨s, hs1, hs2, hs3, hs4⟩ :=
    slugLoop_spec (slugExistsExcl store ef k) l (store.map (fun r => r.slug) ++ l)
      (editMainSlug sl (name.getD self.name) ad) ad
      (fun t ht => List.mem_append.mpr (Or.inl (slugExistsExcl_mem ht)))
      (fun t ht => List.mem_append.mpr (Or.inr ht))
      (editMainSlug_hmain sl (name.getD self.name) ad)
      (slugFuel store (some l)) (editMainSlug sl (name.getD self.name) ad) 1
      (slugFuel_ge store l _ 1)
  refine ⟨s, ?_, hs2, hs3, hs4⟩
  rw [make_new_slug_edit_branch self store ef sl uuid name on_edit ad (some l) on_blank k hpk
    hcond, hs1]

/-! ### The error path and the skipped branches -/

lemma slugLoop_none (exq : String → Bool) (main : String) (ad : Bool) :
    ∀ (fuel : Nat), 2 ≤ fuel → ∀ (slug : String) (count : Nat),
      slugLoop exq none main ad fuel slug count = .error .typeError := by
  intro fuel h slug count
  match fuel, h with
  | fuel + 2, _ =>
    by_cases hq : exq slug = true
    · simp only [slugLoop, hq, exclAdjust, exclMem]
      rfl
    · rw [Bool.not_eq_true] at hq
      simp only [slugLoop, exclMem, hq]
      rfl

lemma make_new_slug_skip_new (self : Rec) (store : List StoredRec) (ef : StoredRec → Bool)
    (sl : String → String) (uuid : String) (name : Option String)
    (on_edit ad : Bool) (excl : Option (List String)) (on_blank : Bool)
    (hpk : self.pk = none) (hbl : isBlank self.slug = false) :
    make_new_slug self store ef sl uuid name on_edit ad excl on_blank = .ok self := by
  unfold make_new_slug
  rw [hpk]
  simp only [hbl]
  rfl

lemma make_new_slug_skip_edit (self : Rec) (store : List StoredRec) (ef : StoredRec → Bool)
    (sl : String → String) (uuid : String) (name : Option String)
    (on_edit ad : Bool) (excl : Option (List String)) (on_blank : Bool) (k : Nat)
    (hpk : self.pk = some k)
    (hcond : (on_edit || (on_blank && isBlank self.slug)) = false) :
    make_new_slug self store ef sl uuid name on_edit ad excl on_blank = .ok self := by
  unfold make_new_slug
  rw [hpk]
  simp only [hcond]
  rfl

lemma slugFuel_none_ge (store : List StoredRec) : 2 ≤ slugFuel store none := by
  unfold slugFuel
  simp only [Option.getD_none]
  omega

/-! ### Dash-freeness of the branch base candidates -/

lemma noDash_newMainSlug (sl : String → String) (nm uuid : String) :
    noDash (newMainSlug sl nm uuid false) :=
  noDash_replaceDashes _

lemma noDash_editMainSlug (sl : String → String) (nm : String) :
    noDash (editMainSlug sl nm false) :=
  noDash_replaceDashes _

/-! ### The Max aggregate -/

lemma aggMax_spec : ∀ (vs : List Int), vs ≠ [] →
    ∃ m, aggMax vs = some m ∧ m ∈ vs ∧ ∀ x ∈ vs, x ≤ m := by
  intro vs
  induction vs with
  | nil => intro h; exact absurd rfl h
  | cons v rest ih =>
    intro _
    match hrest : rest with
    | [] => exact ⟨v, rfl, List.mem_singleton.mpr rfl, by simp⟩
    | w :: ws =>
      obtain ⟨m, hm1, hm2, hm3⟩ := ih (by simp [hrest]) -- rest ≠ []
      refine ⟨max v m, ?_, ?_, ?_⟩
      · show aggMax (v :: w :: ws) = some (max v m)
        unfold aggMax
        rw [show aggMax (w :: ws) = some m from hm1]
      · rcases le_total v m with h | h
        · exact List.mem_cons_of_mem v (by rw [max_eq_right h]; exact hm2)
        · rw [max_eq_left h]
          exact List.mem_cons_self v _
      · intro x hx
        rcases List.mem_cons.mp hx with rfl | hx2
        · exact le_max_left x m
        · exact le_trans (hm3 x hx2) (le_max_right v m)

/-! ### Timestamp persist helpers -/

lemma creationPreSave_frame (r : Rec) (add : Bool) (now : Nat) :
    (creationPreSave r add now).1.modified = r.modified ∧
    (creationPreSave r add now).1.update_modified = r.update_modified := by
  unfold creationPreSave dateTimeFieldPreSave
  split_ifs <;> exact ⟨rfl, rfl⟩

lemma modificationPreSave_set {r : Rec} (h : r.update_modified = true) (add : Bool) (t : Nat) :
    (modificationPreSave r add t).1.modified = some t ∧
    (modificationPreSave r add t).1.update_modified = r.update_modified := by
  unfold modificationPreSave
  rw [if_neg (fun hc => by rw [h] at hc; exact absurd hc.1 (by decide))]
  constructor <;> simp [dateTimeFieldPreSave]

lemma persistOnce_modified {r : Rec} (h : r.update_modified = true) (add : Bool) (t : Nat) :
    (persistOnce r add t).modified = some t ∧
    (persistOnce r add t).update_modified = true := by
  have h1 := creationPreSave_frame r add t
  have h2 := modificationPreSave_set (r := (creationPreSave r add t).1)
    (by rw [h1.2, h]) add t
  refine ⟨h2.1, ?_⟩
  show (modificationPreSave (creationPreSave r add t).1 add t).1.update_modified = true
  rw [h2.2, h1.2, h]

lemma filterMap_of_map_some :
    ∀ (xs : List Rec) (ts : List Nat),
      xs.map (fun s => s.modified) = ts.map some →
      xs.filterMap (fun s => s.modified) = ts := by
  intro xs
  induction xs with
  | nil =>
    intro ts h
    have h2 : ts.map some = [] := h.symm
    rw [List.map_eq_nil_iff] at h2
    rw [h2]
    rfl
  | cons x xs ih =>
    intro ts h
    match ts with
    | [] => simp at h
    | t :: ts2 =>
      simp only [List.map_cons] at h
      injection h with h1 h2
      have h3 : List.filterMap (fun s => s.modified) (x :: xs) =
          t :: List.filterMap (fun s => s.modified) xs := by
        rw [List.filterMap_cons, h1]
      rw [h3, ih ts2 h2]

/-! ### Splitting the label on dots -/

lemma splitDotAux_nil (acc : List Char) : splitDotAux [] acc = [⟨acc.reverse⟩] := rfl

lemma splitDotAux_cons (c : Char) (cs acc : List Char) :
    splitDotAux (c :: cs) acc =
      if c = '.' then ⟨acc.reverse⟩ :: splitDotAux cs [] else splitDotAux cs (c :: acc) := rfl

lemma splitDotAux_no_dot_all :
    ∀ (xs acc : List Char), (∀ c ∈ xs, c ≠ '.') →
      splitDotAux xs acc = [⟨acc.reverse ++ xs⟩] := by
  intro xs
  induction xs with
  | nil =>
    intro acc _
    rw [splitDotAux_nil]
    simp
  | cons c cs ih =>
    intro acc h
    rw [splitDotAux_cons, if_neg (h c (List.mem_cons_self c cs))]
    rw [ih (c :: acc) (fun x hx => h x (List.mem_cons_of_mem c hx))]
    simp [List.reverse_cons, List.append_assoc]

lemma splitDotAux_split (ys : List Char) :
    ∀ (xs acc : List Char), (∀ c ∈ xs, c ≠ '.') →
      splitDotAux (xs ++ '.' :: ys) acc = ⟨acc.reverse ++ xs⟩ :: splitDotAux ys [] := by
  intro xs
  induction xs with
  | nil =>
    intro acc _
    simp only [List.nil_append]
    rw [splitDotAux_cons, if_pos rfl]
    simp
  | cons c cs ih =>
    intro acc h
    simp only [List.cons_append]
    rw [splitDotAux_cons, if_neg (h c (List.mem_cons_self c cs))]
    rw [ih (c :: acc) (fun x hx => h x (List.mem_cons_of_mem c hx))]
    simp [List.reverse_cons, List.append_assoc]

lemma splitDot_label {app mn : String} (h1 : ∀ c ∈ app.data, c ≠ '.')
    (h2 : ∀ c ∈ mn.data, c ≠ '.') :
    splitDot (app ++ "." ++ mn) = [app, mn] := by
  unfold splitDot
  rw [String.data_append, String.data_append]
  have hdot : ("." : String).data = ['.'] := rfl
  rw [hdot, List.append_assoc, List.singleton_append]
  rw [splitDotAux_split mn.data app.data [] h1]
  rw [splitDotAux_no_dot_all mn.data [] h2]
  have e1 : (⟨([] : List Char).reverse ++ app.data⟩ : String) = app := by
    apply String.ext
    simp
  have e2 : (⟨([] : List Char).reverse ++ mn.data⟩ : String) = mn := by
    apply String.ext
    simp
  rw [e1, e2]

/-! ### Claim theorems -/

/-- C1: for every new record (no primary key) with a blank or null slug
field, after `make_new_slug` returns normally the assigned slug matches no
existing record in the store under the caller-supplied extra filters and is
not a member of the caller-supplied exclude list. -/
theorem make_new_slug_unique (self : Rec) (store : List StoredRec) (ef : StoredRec → Bool)
    (sl : String → String) (uuid : String) (name : Option String)
    (on_edit ad : Bool) (l : List String) (on_blank : Bool) (r2 : Rec)
    (hpk : self.pk = none) (hbl : isBlank self.slug = true)
    (hok : make_new_slug self store ef sl uuid name on_edit ad (some l) on_blank = .ok r2) :
    ∃ s, r2.slug = some s ∧ (∀ t ∈ store, ef t = true → t.slug ≠ s) ∧ s ∉ l := by
  obtain ⟨s, hs1, hs2, hs3, _⟩ :=
    make_new_slug_new_spec self store ef sl uuid name on_edit ad l on_blank hpk hbl
  rw [hok] at hs1
  have hr : r2 = {self with slug := some s} := Except.ok.inj hs1
  refine ⟨s, by rw [hr], ?_, hs3⟩
  intro t ht hef heq
  have hex : slugExists store ef s = true := by
    unfold slugExists
    refine List.any_eq_true.mpr ⟨t, ht, ?_⟩
    rw [Bool.and_eq_true]
    exact ⟨beq_iff_eq.mpr heq, hef⟩
  rw [hex] at hs2
  exact absurd hs2 (by decide)

/-- Witness for C1: the store holds slug "a", "a1" is excluded, so the new
record gets the free slug "a2". -/
theorem make_new_slug_unique_witness :
    ∃ s, (⟨none, some "a2", "", none, none, none, none, true, true⟩ : Rec).slug = some s ∧
      (∀ t ∈ [(⟨1, "a"⟩ : StoredRec)], (fun (_ : StoredRec) => true) t = true → t.slug ≠ s) ∧
      s ∉ ["a1"] :=
  make_new_slug_unique ⟨none, some "", "", none, none, none, none, true, true⟩ [⟨1, "a"⟩]
    (fun _ => true) (fun _ => "a") "u" none false true ["a1"] false
    ⟨none, some "a2", "", none, none, none, none, true, true⟩ rfl (by decide) (by decide)

/-- C2: calling `make_new_slug` with `exclude_list` left at its default
`None`, on any record entering a slug-computation branch, raises the
`TypeError` from the membership test on `None`; the embedded call returns
the error instead of an updated record, so no slug is assigned. -/
theorem make_new_slug_none_exclude (self : Rec) (store : List StoredRec) (ef : StoredRec → Bool)
    (sl : String → String) (uuid : String) (name : Option String)
    (on_edit ad : Bool) (on_blank : Bool)
    (h : (self.pk = none ∧ isBlank self.slug = true) ∨
      (∃ k, self.pk = some k ∧ (on_edit || (on_blank && isBlank self.slug)) = true)) :
    make_new_slug self store ef sl uuid name on_edit ad none on_blank = .error .typeError := by
  rcases h with ⟨hpk, hbl⟩ | ⟨k, hpk, hcond⟩
  · rw [make_new_slug_new_branch self store ef sl uuid name on_edit ad none on_blank hpk hbl]
    rw [slugLoop_none _ _ _ _ (slugFuel_none_ge store)]
  · rw [make_new_slug_edit_branch self store ef sl uuid name on_edit ad none on_blank k hpk
      hcond]
    rw [slugLoop_none _ _ _ _ (slugFuel_none_ge store)]

/-- Witness for C2: a fresh record with null slug and no exclude list. -/
theorem make_new_slug_none_exclude_witness :
    make_new_slug ⟨none, none, "x", none, none, none, none, true, true⟩ [] (fun _ => true)
      (fun s => s) "u" none false true none false = .error .typeError :=
  make_new_slug_none_exclude ⟨none, none, "x", none, none, none, none, true, true⟩ []
    (fun _ => true) (fun s => s) "u" none false true false (Or.inl ⟨rfl, rfl⟩)

/-- C3 (amended): whenever `make_new_slug` computes a new slug, the assigned
slug is the branch base candidate, possibly followed by a decimal count: in
the creation branch the base is the slugified name truncated to 45
characters with the UUID substituted when that is empty (`newMainSlug`); in
the edit branch the base is the truncated slugified name with NO UUID
substitution (`editMainSlug`) — an empty candidate is used as-is there. -/
theorem make_new_slug_base_candidate (self : Rec) (store : List StoredRec)
    (ef : StoredRec → Bool) (sl : String → String) (uuid : String) (name : Option String)
    (on_edit ad : Bool) (l : List String) (on_blank : Bool) (r2 : Rec) :
    (self.pk = none → isBlank self.slug = true →
      make_new_slug self store ef sl uuid name on_edit ad (some l) on_blank = .ok r2 →
      ∃ s, r2.slug = some s ∧
        (s = newMainSlug sl (name.getD self.name) uuid ad ∨
          ∃ c, 1 ≤ c ∧ s = numbered (newMainSlug sl (name.getD self.name) uuid ad) c)) ∧
    (∀ k, self.pk = some k → (on_edit || (on_blank && isBlank self.slug)) = true →
      make_new_slug self store ef sl uuid name on_edit ad (some l) on_blank = .ok r2 →
      ∃ s, r2.slug = some s ∧
        (s = editMainSlug sl (name.getD self.name) ad ∨
          ∃ c, 1 ≤ c ∧ s = numbered (editMainSlug sl (name.getD self.name) ad) c)) := by
  constructor
  · intro hpk hbl hok
    obtain ⟨s, hs1, _, _, hs4⟩ :=
      make_new_slug_new_spec self store ef sl uuid name on_edit ad l on_blank hpk hbl
    rw [hok] at hs1
    have hr : r2 = {self with slug := some s} := Except.ok.inj hs1
    exact ⟨s, by rw [hr], hs4⟩
  · intro k hpk hcond hok
    obtain ⟨s, hs1, _, _, hs4⟩ :=
      make_new_slug_edit_spec self store ef sl uuid name on_edit ad l on_blank k hpk hcond
    rw [hok] at hs1
    have hr : r2 = {self with slug := some s} := Except.ok.inj hs1
    exact ⟨s, by rw [hr], hs4⟩

/-- Witness for C3 (amended), creation branch at a concrete input. -/
theorem make_new_slug_base_candidate_witness :
    ∃ s, (⟨none, some "a2", "", none, none, none, none, true, true⟩ : Rec).slug = some s ∧
      (s = newMainSlug (fun _ => "a") "" "u" true ∨
        ∃ c, 1 ≤ c ∧ s = numbered (newMainSlug (fun _ => "a") "" "u" true) c) :=
  (make_new_slug_base_candidate ⟨none, some "", "", none, none, none, none, true, true⟩
    [⟨1, "a"⟩] (fun _ => true) (fun _ => "a") "u" none false true ["a1"] false
    ⟨none, some "a2", "", none, none, none, none, true, true⟩).1 rfl (by decide) (by decide)

/-- Counterexample for C3 as stated: in the edit branch with a name that
slugifies to the empty string, the empty normalized candidate is used
directly and the assigned slug is the empty string — no UUID ("u-1" here)
is substituted, contrary to the claim that an empty normalized candidate is
always replaced by a UUID. -/
theorem make_new_slug_uuid_claim_cex :
    make_new_slug ⟨some 7, some "old", "x", none, none, none, none, true, true⟩ []
        (fun _ => true) (fun _ => "") "u-1" none true true (some []) false
      = .ok ⟨some 7, some "", "x", none, none, none, none, true, true⟩ ∧
    truncate45 "" = "" ∧ ("" : String) ≠ "u-1" :=
  ⟨by decide, rfl, by decide⟩

/-- C4 (amended): with the suppression flag `update_created` unset the
inherited `auto_now_add` behaviour assigns the current timestamp exactly on
a first persist — regardless of whether the field already holds a value;
with the flag set an existing value is kept.  Symmetrically, with
`update_modified` unset the modified field is set to the current time on
every persist, and with it set an existing value is kept. -/
theorem pre_save_timestamp_rules (r : Rec) (now : Nat) (add : Bool) :
    (r.update_created = true →
      (creationPreSave r add now).1.created = (if add then some now else r.created)) ∧
    (r.update_created = false → ∀ t, r.created = some t →
      creationPreSave r add now = (r, some t)) ∧
    (r.update_modified = true → (modificationPreSave r add now).1.modified = some now) ∧
    (r.update_modified = false → ∀ t, r.modified = some t →
      modificationPreSave r add now = (r, some t)) := by
  refine ⟨?_, ?_, ?_, ?_⟩
  · intro h
    unfold creationPreSave
    rw [if_neg (fun hc => by rw [h] at hc; exact absurd hc.1 (by decide))]
    cases add
    · simp [dateTimeFieldPreSave]
    · simp [dateTimeFieldPreSave]
  · intro h t ht
    unfold creationPreSave
    rw [if_pos ⟨h, by rw [ht]; exact Option.some_ne_none t⟩, ht]
  · intro h
    exact (modificationPreSave_set h add now).1
  · intro h t ht
    unfold modificationPreSave
    rw [if_pos ⟨h, by rw [ht]; exact Option.some_ne_none t⟩, ht]

/-- Witness for C4 (amended): each rule at a concrete record. -/
theorem pre_save_timestamp_rules_witness :
    ((creationPreSave ⟨none, none, "", none, none, none, none, true, true⟩ true 9).1.created
        = (if true then some 9 else none)) ∧
    (creationPreSave ⟨none, none, "", none, none, some 4, none, false, true⟩ true 9
        = (⟨none, none, "", none, none, some 4, none, false, true⟩, some 4)) ∧
    ((modificationPreSave ⟨none, none, "", none, none, none, none, true, true⟩ false 9).1.modified
        = some 9) ∧
    (modificationPreSave ⟨none, none, "", none, none, none, some 4, true, false⟩ false 9
        = (⟨none, none, "", none, none, none, some 4, true, false⟩, some 4)) :=
  ⟨(pre_save_timestamp_rules ⟨none, none, "", none, none, none, none, true, true⟩ 9 true).1 rfl,
    (pre_save_timestamp_rules ⟨none, none, "", none, none, some 4, none, false, true⟩ 9
      true).2.1 rfl 4 rfl,
    (pre_save_timestamp_rules ⟨none, none, "", none, none, none, none, true, true⟩ 9
      false).2.2.1 rfl,
    (pre_save_timestamp_rules ⟨none, none, "", none, none, none, some 4, true, false⟩ 9
      false).2.2.2 rfl 4 rfl⟩

/-- Counterexample for C4 as stated: suppression unset, `created` already
holds `some 5` (not empty), yet the first persist assigns the current time 9
— the claim's "only when the field is empty" fails on the code. -/
theorem created_empty_only_cex :
    (creationPreSave ⟨none, none, "", none, none, some 5, none, true, true⟩ true 9).1.created
        = some 9 ∧
      ((some 5 : Option Nat) ≠ none) ∧ ((some 9 : Option Nat) ≠ some 5) :=
  ⟨by decide, by decide, by decide⟩

/-- C5: when the order field is unset, `set_order_field` assigns one plus
the maximum existing order value among records matching the caller-supplied
filters, or 1 when no value exists; when the order field is set, the record
is left unchanged. -/
theorem set_order_field_spec (self : Rec) (store : List OrderRec) (ef : OrderRec → Bool) :
    (∀ v, self.order = some v → set_order_field self store ef = self) ∧
    (self.order = none → store.filter ef = [] →
      (set_order_field self store ef).order = some 1) ∧
    (self.order = none → (store.filter ef).filterMap (fun t => t.order) ≠ [] →
      ∃ m, m ∈ (store.filter ef).filterMap (fun t => t.order) ∧
        (∀ x ∈ (store.filter ef).filterMap (fun t => t.order), x ≤ m) ∧
        (set_order_field self store ef).order = some (m + 1)) := by
  refine ⟨?_, ?_, ?_⟩
  · intro v hv
    unfold set_order_field
    rw [hv]
  · intro h0 hf
    unfold set_order_field
    rw [h0, hf]
    rfl
  · intro h0 hne
    obtain ⟨m, hm1, hm2, hm3⟩ := aggMax_spec _ hne
    refine ⟨m, hm2, hm3, ?_⟩
    unfold set_order_field
    rw [h0, hm1]

/-- Witness for C5: orders 3 and 5 present (plus a null), next order is 6. -/
theorem set_order_field_spec_witness :
    ∃ m, m ∈ (([(⟨some 3⟩ : OrderRec), ⟨none⟩, ⟨some 5⟩].filter
        (fun (_ : OrderRec) => true)).filterMap (fun t => t.order)) ∧
      (∀ x ∈ (([(⟨some 3⟩ : OrderRec), ⟨none⟩, ⟨some 5⟩].filter
        (fun (_ : OrderRec) => true)).filterMap (fun t => t.order)), x ≤ m) ∧
      (set_order_field ⟨none, none, "", none, none, none, none, true, true⟩
        [⟨some 3⟩, ⟨none⟩, ⟨some 5⟩] (fun _ => true)).order = some (m + 1) :=
  (set_order_field_spec ⟨none, none, "", none, none, none, none, true, true⟩
    [⟨some 3⟩, ⟨none⟩, ⟨some 5⟩] (fun _ => true)).2.2 rfl (by decide)

/-- C6: `make_new_slug` computes and assigns a slug only in the three
trigger cases; in every other case the call returns the record unchanged
(slug field and all other fields). -/
theorem make_new_slug_frame (self : Rec) (store : List StoredRec) (ef : StoredRec → Bool)
    (sl : String → String) (uuid : String) (name : Option String)
    (on_edit ad : Bool) (excl : Option (List String)) (on_blank : Bool)
    (h1 : self.pk = none → isBlank self.slug = false)
    (h2 : ∀ k, self.pk = some k → (on_edit || (on_blank && isBlank self.slug)) = false) :
    make_new_slug self store ef sl uuid name on_edit ad excl on_blank = .ok self := by
  match hpk : self.pk with
  | none =>
    exact make_new_slug_skip_new self store ef sl uuid name on_edit ad excl on_blank hpk
      (h1 hpk)
  | some k =>
    exact make_new_slug_skip_edit self store ef sl uuid name on_edit ad excl on_blank k hpk
      (h2 k hpk)

/-- Witness for C6: a persisted record with neither on_edit nor on_blank
set is returned unchanged. -/
theorem make_new_slug_frame_witness :
    make_new_slug ⟨some 1, some "x", "n", none, none, none, none, true, true⟩ []
      (fun _ => true) (fun s => s) "u" none false true (some []) false
      = .ok ⟨some 1, some "x", "n", none, none, none, none, true, true⟩ :=
  make_new_slug_frame ⟨some 1, some "x", "n", none, none, none, none, true, true⟩ []
    (fun _ => true) (fun s => s) "u" none false true (some []) false
    (fun hpk => absurd hpk (by decide)) (fun _ _ => rfl)

/-- C7: with an exclude list supplied, the collision-resolution loop of
`make_new_slug` always terminates — the numbered candidates are pairwise
distinct, so a slug free of the finite store and the finite exclude list is
found and the call returns normally. -/
theorem make_new_slug_terminates (self : Rec) (store : List StoredRec) (ef : StoredRec → Bool)
    (sl : String → String) (uuid : String) (name : Option String)
    (on_edit ad : Bool) (l : List String) (on_blank : Bool) :
    ∃ r2, make_new_slug self store ef sl uuid name on_edit ad (some l) on_blank = .ok r2 := by
  match hpk : self.pk with
  | none =>
    by_cases hbl : isBlank self.slug = true
    · obtain ⟨s, hs1, _, _, _⟩ :=
        make_new_slug_new_spec self store ef sl uuid name on_edit ad l on_blank hpk hbl
      exact ⟨_, hs1⟩
    · rw [Bool.not_eq_true] at hbl
      exact ⟨self, make_new_slug_skip_new self store ef sl uuid name on_edit ad (some l)
        on_blank hpk hbl⟩
  | some k =>
    by_cases hcond : (on_edit || (on_blank && isBlank self.slug)) = true
    · obtain ⟨s, hs1, _, _, _⟩ :=
        make_new_slug_edit_spec self store ef sl uuid name on_edit ad l on_blank k hpk hcond
      exact ⟨_, hs1⟩
    · rw [Bool.not_eq_true] at hcond
      exact ⟨self, make_new_slug_skip_edit self store ef sl uuid name on_edit ad (some l)
        on_blank k hpk hcond⟩

/-- C8: every slug assigned by a `make_new_slug` call with `allow_dashes =
False` contains no dash character; when no slug is assigned the record is
unchanged. -/
theorem make_new_slug_no_dashes (self : Rec) (store : List StoredRec) (ef : StoredRec → Bool)
    (sl : String → String) (uuid : String) (name : Option String)
    (on_edit : Bool) (l : List String) (on_blank : Bool) (r2 : Rec)
    (hok : make_new_slug self store ef sl uuid name on_edit false (some l) on_blank = .ok r2) :
    r2 = self ∨ ∃ s, r2.slug = some s ∧ ∀ c ∈ s.data, c ≠ '-' := by
  match hpk : self.pk with
  | none =>
    by_cases hbl : isBlank self.slug = true
    · right
      obtain ⟨s, hs1, _, _, hs4⟩ :=
        make_new_slug_new_spec self store ef sl uuid name on_edit false l on_blank hpk hbl
      rw [hok] at hs1
      have hr : r2 = {self with slug := some s} := Except.ok.inj hs1
      refine ⟨s, by rw [hr], ?_⟩
      rcases hs4 with rfl | ⟨c, _, rfl⟩
      · exact noDash_newMainSlug sl _ uuid
      · exact noDash_numbered (noDash_newMainSlug sl _ uuid) c
    · left
      rw [Bool.not_eq_true] at hbl
      have hskip := make_new_slug_skip_new self store ef sl uuid name on_edit false (some l)
        on_blank hpk hbl
      rw [hskip] at hok
      exact (Except.ok.inj hok).symm
  | some k =>
    by_cases hcond : (on_edit || (on_blank && isBlank self.slug)) = true
    · right
      obtain ⟨s, hs1, _, _, hs4⟩ :=
        make_new_slug_edit_spec self store ef sl uuid name on_edit false l on_blank k hpk hcond
      rw [hok] at hs1
      have hr : r2 = {self with slug := some s} := Except.ok.inj hs1
      refine ⟨s, by rw [hr], ?_⟩
      rcases hs4 with rfl | ⟨c, _, rfl⟩
      · exact noDash_editMainSlug sl _
      · exact noDash_numbered (noDash_editMainSlug sl _) c
    · left
      rw [Bool.not_eq_true] at hcond
      have hskip := make_new_slug_skip_edit self store ef sl uuid name on_edit false (some l)
        on_blank k hpk hcond
      rw [hskip] at hok
      exact (Except.ok.inj hok).symm

/-- Witness for C8: a name slugifying to "a-b" yields the dash-free slug
"a_b" when dashes are not allowed. -/
theorem make_new_slug_no_dashes_witness :
    (⟨none, some "a_b", "", none, none, none, none, true, true⟩ : Rec)
        = ⟨none, some "", "", none, none, none, none, true, true⟩ ∨
      ∃ s, (⟨none, some "a_b", "", none, none, none, none, true, true⟩ : Rec).slug = some s ∧
        ∀ c ∈ s.data, c ≠ '-' :=
  make_new_slug_no_dashes ⟨none, some "", "", none, none, none, none, true, true⟩ []
    (fun _ => true) (fun _ => "a-b") "u" none false [] false
    ⟨none, some "a_b", "", none, none, none, none, true, true⟩ (by decide)

/-- C9: with the suppression flag `update_modified` unset, every persist
stores the current clock time in `modified`; under a non-decreasing clock
the stored values advance monotonically across the persist sequence. -/
theorem modified_monotone (r : Rec) (ts : List Nat)
    (hupd : r.update_modified = true) (hts : List.Chain' (fun a b => a ≤ b) ts) :
    (persistStates r ts).map (fun s => s.modified) = ts.map some ∧
    List.Chain' (fun a b => a ≤ b) ((persistStates r ts).filterMap (fun s => s.modified)) := by
  have hmap : ∀ (us : List Nat) (q : Rec), q.update_modified = true →
      (persistStates q us).map (fun s => s.modified) = us.map some := by
    intro us
    induction us with
    | nil =>
      intro q _
      rfl
    | cons t us ih =>
      intro q h
      have hp := persistOnce_modified h false t
      simp only [persistStates, List.map_cons]
      rw [hp.1, ih _ hp.2]
  have h1 := hmap ts r hupd
  refine ⟨h1, ?_⟩
  rw [filterMap_of_map_some _ _ h1]
  exact hts

/-- Witness for C9 with clock times 1, 2, 2. -/
theorem modified_monotone_witness :
    ((persistStates ⟨none, none, "", none, none, none, none, true, true⟩ [1, 2, 2]).map
        (fun s => s.modified) = [1, 2, 2].map some) ∧
    List.Chain' (fun a b => a ≤ b)
      ((persistStates ⟨none, none, "", none, none, none, none, true, true⟩ [1, 2, 2]).filterMap
        (fun s => s.modified)) :=
  modified_monotone ⟨none, none, "", none, none, none, none, true, true⟩ [1, 2, 2] rfl
    (by simp [List.chain'_cons])

/-- C10: when the instance-type field is unset, `set_instance_type` assigns
the model-name part of the `'app_label.model_name'` label; when it is set,
the record is left unchanged. -/
theorem set_instance_type_spec (self : Rec) (label app mn : String) :
    (∀ v, self.instance_type = some v → set_instance_type self label = some self) ∧
    (self.instance_type = none → (∀ c ∈ app.data, c ≠ '.') → (∀ c ∈ mn.data, c ≠ '.') →
      label = app ++ "." ++ mn →
      set_instance_type self label = some {self with instance_type := some mn}) := by
  constructor
  · intro v hv
    unfold set_instance_type
    rw [hv]
  · intro h0 h1 h2 hl
    unfold set_instance_type
    rw [h0, hl, splitDot_label h1 h2]
    rfl

/-- Witness for C10: label "zoo.dog" yields instance type "dog". -/
theorem set_instance_type_spec_witness :
    set_instance_type ⟨none, none, "", none, none, none, none, true, true⟩ "zoo.dog"
      = some ⟨none, none, "", none, some "dog", none, none, true, true⟩ :=
  (set_instance_type_spec ⟨none, none, "", none, none, none, none, true, true⟩ "zoo.dog"
    "zoo" "dog").2 rfl (by decide) (by decide) (by decide)

end TSM
